import Mathlib

/-!
Shallow embedding of the video_record service (src/app.py): the
LocalVideoStorage component and the HTTP handlers upload_video,
session_info and list_sessions.

Paths under the storage root are modelled component-wise: a directory is a
list of path components, and a file is keyed by its directory plus its
filename. The wall clock (datetime.now) is passed explicitly as a record
holding the three formatted values the code extracts from it. I/O failures
(open/write/mkdir raising OSError) are injected through an explicit record
of optional error messages, one per fallible operation, so that the
try/except behaviour of the source can be stated for every failure pattern.
-/

namespace VideoRecord

/-- Raw video payload bytes. -/
abbrev Bytes := List Nat

/-- The metadata record built in save_video and dumped to the sidecar JSON
file. Field names and order follow the dict literal in the source. -/
structure Metadata where
  session_id : String
  question_number : Int
  question_text : String
  filename : String
  timestamp : String
  file_path : String
  file_size : Nat
deriving DecidableEq

/-- Contents of a stored file: raw video bytes, or the metadata record
(the JSON text serialization itself is not modelled, only the record). -/
inductive FileData where
  | video (bytes : Bytes)
  | meta (m : Metadata)
deriving DecidableEq

/-- A file key: directory components from the storage root, and the filename. -/
abbrev FileKey := List String × String

/-- State of the disk under the storage root: files keyed by directory and
name, plus the set of created directories, both in creation order. -/
structure FS where
  files : List (FileKey × FileData)
  dirs : List (List String)
deriving DecidableEq

def FS.empty : FS := ⟨[], []⟩

/-- First binding of a key in an association list of files. -/
def lookupFile (k : FileKey) : List (FileKey × FileData) → Option FileData
  | [] => none
  | e :: es => if e.1 = k then some e.2 else lookupFile k es

/-- Contents of the file at key k, if it exists. -/
def fsRead (fs : FS) (k : FileKey) : Option FileData :=
  lookupFile k fs.files

/-- Replace the binding of k if present, else append it: the effect of
open(path, w-mode) followed by a write. -/
def upsert (k : FileKey) (d : FileData) : List (FileKey × FileData) → List (FileKey × FileData)
  | [] => [(k, d)]
  | e :: es => if e.1 = k then (k, d) :: es else e :: upsert k d es

/-- Write a whole file at key k (create or overwrite). -/
def fsWrite (fs : FS) (k : FileKey) (d : FileData) : FS :=
  ⟨upsert k d fs.files, fs.dirs⟩

/-- mkdir(exist_ok=True) for one directory. -/
def addDir (fs : FS) (d : List String) : FS :=
  if d ∈ fs.dirs then fs else ⟨fs.files, fs.dirs ++ [d]⟩

/-- Number of bindings of key k (one in any state reachable by the code). -/
def keyCount (k : FileKey) : List (FileKey × FileData) → Nat
  | [] => 0
  | e :: es => (if e.1 = k then 1 else 0) + keyCount k es

/-- Path.exists(): true when the path is a created directory or a file. -/
def pathExists (fs : FS) (p : List String) : Bool :=
  fs.dirs.contains p || fs.files.any (fun e => e.1.1 ++ [e.1.2] == p)

/-- One sampled wall clock instant, holding the three formatted values the
code extracts from datetime.now(): strftime Y-m-d, strftime H-M-S, isoformat. -/
structure DT where
  date : String
  time : String
  iso : String
deriving DecidableEq

/-- str(Path): join path components with slashes. -/
def joinPath (p : List String) : String := String.intercalate "/" p

/-- Value of a nonempty all-digit character sequence, read in base 10. -/
def digitsVal (cs : List Char) : Option Nat :=
  if cs.isEmpty then none
  else if cs.all (fun c => c.isDigit) then
    some (cs.foldl (fun a c => a * 10 + (c.toNat - 48)) 0)
  else none

/-- str.strip(): drop whitespace from both ends. -/
def pyStrip (s : String) : List Char :=
  ((s.data.dropWhile (fun c => c.isWhitespace)).reverse.dropWhile
    (fun c => c.isWhitespace)).reverse

/-- Python int(s) on a string: surrounding whitespace stripped, optional
sign, then base-10 digits; anything else raises ValueError (here: none). -/
def pyInt (s : String) : Option Int :=
  match pyStrip s with
  | '-' :: rest => (digitsVal rest).map (fun n => -(n : Int))
  | '+' :: rest => (digitsVal rest).map (fun n => (n : Int))
  | cs => (digitsVal cs).map (fun n => (n : Int))

/-- Injected I/O failures, one slot per fallible operation inside
save_video: a some message makes that operation raise with that text. -/
structure Err where
  mkdirErr : Option String
  writeVideoErr : Option String
  writeMetaErr : Option String
deriving DecidableEq

/-- No injected failure: the happy-path environment. -/
def noErr : Err := ⟨none, none, none⟩

/-- Name of the video file: question_{question_number}_{timestamp}.webm. -/
def videoFilename (question_number : String) (time : String) : String :=
  "question_" ++ question_number ++ "_" ++ time ++ ".webm"

/-- Name of the metadata file: question_{question_number}_metadata.json. -/
def metadataFilename (question_number : String) : String :=
  "question_" ++ question_number ++ "_metadata.json"

/-- create_session_folder: path base/current_date/session_id, created with
parents and exist_ok. -/
def create_session_folder (fs : FS) (now : DT) (session_id : String) : List String × FS :=
  let session_folder := [now.date, session_id]
  (session_folder, addDir (addDir fs [now.date]) session_folder)

/-- Result dict of save_video: the success shape carries the relative file
path and the metadata record, the failure shape carries the error text. -/
inductive SaveResult where
  | ok (file_path : FileKey) (metadata : Metadata)
  | err (msg : String)
deriving DecidableEq

def SaveResult.success : SaveResult → Bool
  | .ok _ _ => true
  | .err _ => false

/-- LocalVideoStorage.save_video: create the session folder for today,
write the video bytes under a time-of-day name, then build the metadata
record (coercing question_number with int()) and write/overwrite the
per-question metadata file. Any raise inside the try block is caught and
returned as a failure result, leaving the disk as the completed prefix of
operations left it. -/
def save_video (env : Err) (fs : FS) (now : DT) (video_data : Bytes)
    (session_id question_number question_text : String) : SaveResult × FS :=
  match env.mkdirErr with
  | some e => (.err e, fs)
  | none =>
    let sf := create_session_folder fs now session_id
    let session_folder := sf.1
    let fs1 := sf.2
    let filename := videoFilename question_number now.time
    let vkey : FileKey := (session_folder, filename)
    match env.writeVideoErr with
    | some e => (.err e, fs1)
    | none =>
      let fs2 := fsWrite fs1 vkey (.video video_data)
      match pyInt question_number with
      | none => (.err ("invalid literal for int() with base 10: " ++ question_number), fs2)
      | some qn =>
        let metadata : Metadata :=
          ⟨session_id, qn, question_text, filename, now.iso,
            joinPath (session_folder ++ [filename]), video_data.length⟩
        let mkey : FileKey := (session_folder, metadataFilename question_number)
        match env.writeMetaErr with
        | some e => (.err e, fs2)
        | none => (.ok vkey metadata, fsWrite fs2 mkey (.meta metadata))

/-- fnmatch of a glob pattern *suffix on a filename; pathlib glob also
skips hidden files (leading dot). -/
def globSuffix (suffix : String) (name : String) : Bool :=
  (suffix.data.isSuffixOf name.data) && !(name.data.head? == some '.')

/-- Glob *.webm, the pattern deciding which files count as videos. -/
def matchesWebm (name : String) : Bool := globSuffix ".webm" name

/-- Glob *_metadata.json, the pattern for metadata sidecar files. -/
def matchesMetaJson (name : String) : Bool := globSuffix "_metadata.json" name

/-- Files directly inside a folder, as (name, contents) pairs, in storage
order (the model of filesystem enumeration order). -/
def filesIn (fs : FS) (folder : List String) : List (String × FileData) :=
  fs.files.filterMap (fun e => if e.1.1 = folder then some (e.1.2, e.2) else none)

/-- glob(*.webm) inside a folder. -/
def webmFilesIn (fs : FS) (folder : List String) : List (String × FileData) :=
  (filesIn fs folder).filter (fun e => matchesWebm e.1)

/-- glob(*_metadata.json) inside a folder. -/
def metaJsonFilesIn (fs : FS) (folder : List String) : List (String × FileData) :=
  (filesIn fs folder).filter (fun e => matchesMetaJson e.1)

/-- Byte size reported by stat for a stored file; the byte size of the
serialized metadata JSON text is not modelled. -/
def fileSize : FileData → Nat
  | .video b => b.length
  | .meta _ => 0

/-- One entry of the videos list in the session-info result. The created
field of the source (stat st_ctime) is filesystem metadata outside this
model and no claim mentions it. -/
structure VideoInfo where
  filename : String
  size : Nat
deriving DecidableEq

/-- Result dict of get_session_info. -/
inductive InfoResult where
  | ok (session_id : String) (total_questions : Nat)
      (session_folder : List String) (videos : List VideoInfo)
  | err (msg : String)
deriving DecidableEq

def InfoResult.success : InfoResult → Bool
  | .ok _ _ _ _ => true
  | .err _ => false

def InfoResult.total_questions? : InfoResult → Option Nat
  | .ok _ n _ _ => some n
  | .err _ => none

/-- LocalVideoStorage.get_session_info: look under today's date folder
only; if absent report the session as not found, else report the count of
glob *.webm files and their per-file info. The env argument injects an
exception raised inside the try block (e.g. a stat failure), which the
except clause turns into a failure result. -/
def get_session_info (env : Option String) (fs : FS) (now : DT) (session_id : String) : InfoResult :=
  match env with
  | some e => .err e
  | none =>
    let session_folder := [now.date, session_id]
    if pathExists fs session_folder then
      let video_files := webmFilesIn fs session_folder
      .ok session_id video_files.length session_folder
        (video_files.map (fun e => ⟨e.1, fileSize e.2⟩))
    else .err "Сессия не найдена"

/-- One entry of the list-sessions response. -/
structure SessionEntry where
  session_id : String
  date : String
  video_count : Nat
  path : String
deriving DecidableEq

/-- Stable insertion for descending-by-date order: an element moves past
another only when its date is strictly larger, so equal dates keep their
enumeration order, matching python sorted(key=date, reverse=True). -/
def insertByDateDesc (x : SessionEntry) : List SessionEntry → List SessionEntry
  | [] => [x]
  | y :: ys => if y.date < x.date then x :: y :: ys else y :: insertByDateDesc x ys

def sortByDateDesc (l : List SessionEntry) : List SessionEntry :=
  l.foldl (fun acc x => insertByDateDesc x acc) []

/-- Top-level date folders of the storage root, in enumeration order. -/
def dateFolders (fs : FS) : List String :=
  fs.dirs.filterMap (fun p => match p with | [d] => some d | _ => none)

/-- Session folders directly inside one date folder. -/
def sessionFoldersIn (fs : FS) (date : String) : List String :=
  fs.dirs.filterMap (fun p =>
    match p with
    | [d, s] => if d = date then some s else none
    | _ => none)

/-- The list-sessions handler: walk date folders, then session folders,
count glob *.webm files per session, and sort by date descending. -/
def list_sessions (fs : FS) : List SessionEntry :=
  let sessions := (dateFolders fs).flatMap (fun date =>
    (sessionFoldersIn fs date).map (fun sid =>
      ⟨sid, date, (webmFilesIn fs [date, sid]).length, joinPath [date, sid]⟩))
  sortByDateDesc sessions

/-- A multipart upload request: the optional video file part (filename and
bytes) and the three optional form fields. -/
structure UploadRequest where
  video : Option (String × Bytes)
  session_id : Option String
  question_number : Option String
  question_text : Option String
deriving DecidableEq

/-- HTTP response of the upload handler: 200 body, 400 body, or 500 body. -/
inductive HttpResp where
  | ok (file_path : String) (file_size : Nat)
  | clientErr (msg : String)
  | serverErr (msg : String)
deriving DecidableEq

def HttpResp.isClientErr : HttpResp → Bool
  | .clientErr _ => true
  | _ => false

/-- Translation of a save_video result into the upload-video HTTP
response: 200 echoing path and size on success, 500 on storage failure. -/
def saveRespOf : SaveResult × FS → HttpResp × FS
  | (.ok k m, fs) => (.ok (joinPath (k.1 ++ [k.2])) m.file_size, fs)
  | (.err e, fs) => (.serverErr ("Ошибка сохранения: " ++ e), fs)

/-- The upload_video handler: 400 when the video part is missing, the
filename is empty, or the payload is empty; otherwise call save_video with
the form fields, absent ones defaulted (unknown, 1, empty string). -/
def upload_video (env : Err) (req : UploadRequest) (fs : FS) (now : DT) : HttpResp × FS :=
  match req.video with
  | none => (.clientErr "Видео файл не найден", fs)
  | some vf =>
    let session_id := req.session_id.getD "unknown"
    let question_number := req.question_number.getD "1"
    let question_text := req.question_text.getD ""
    if vf.1 = "" then (.clientErr "Файл не выбран", fs)
    else if vf.2.length = 0 then (.clientErr "Файл пустой", fs)
    else saveRespOf (save_video env fs now vf.2 session_id question_number question_text)

/-- The wall clock of the worked example in the spec: 2024-06-01 14:05:10. -/
def exNow : DT := ⟨"2024-06-01", "14-05-10", "2024-06-01T14:05:10"⟩

/-- One second later, same day. -/
def exNow2 : DT := ⟨"2024-06-01", "14-05-11", "2024-06-01T14:05:11"⟩

/-- Two saves for the same question at distinct seconds: the fixture for
the duplicate-question scenarios. -/
def fsDup : FS :=
  (save_video noErr (save_video noErr FS.empty exNow [0] "s" "1" "a").2 exNow2 [0, 1] "s" "1" "a").2

/-- A prior-date session folder with no folder for today. -/
def fsPrior : FS := ⟨[], [["2024-05-31"], ["2024-05-31", "sess-A"]]⟩

/-- State after two save_video calls. -/
def saveTwice (fs : FS) (n1 n2 : DT) (d1 d2 : Bytes) (sid qn qt1 qt2 : String) : FS :=
  (save_video noErr (save_video noErr fs n1 d1 sid qn qt1).2 n2 d2 sid qn qt2).2

/-- Every stored video payload sits under a filename ending in the letter
m (as .webm files do): holds in every state the code can produce. -/
def videosWellNamed (fs : FS) : Prop :=
  ∀ e ∈ fs.files, ∀ b, e.2 = FileData.video b → e.1.2.data.getLast? = some 'm'

/-! Support lemmas on filenames, the file store, and the sort. -/

theorem strLast_append (s t : String) (c : Char) (h : t.data.getLast? = some c) :
    (s ++ t).data.getLast? = some c := by
  rw [String.data_append, List.getLast?_append, h]
  rfl

theorem strLast_videoFilename (qn t : String) :
    (videoFilename qn t).data.getLast? = some 'm' := by
  unfold videoFilename
  exact strLast_append _ ".webm" 'm' (by decide)

theorem strLast_metadataFilename (qn : String) :
    (metadataFilename qn).data.getLast? = some 'n' := by
  unfold metadataFilename
  exact strLast_append _ "_metadata.json" 'n' (by decide)

theorem videoFilename_ne_metadataFilename (qn t qn' : String) :
    videoFilename qn t ≠ metadataFilename qn' := by
  intro h
  have h1 := strLast_videoFilename qn t
  have h2 := strLast_metadataFilename qn'
  rw [h, h2] at h1
  exact absurd h1 (by decide)

theorem videoFilename_inj_time (qn t1 t2 : String)
    (h : videoFilename qn t1 = videoFilename qn t2) : t1 = t2 := by
  unfold videoFilename at h
  have hd := congrArg String.data h
  simp only [String.data_append, List.append_assoc] at hd
  have h1 := List.append_cancel_left hd
  have h2 := List.append_cancel_left h1
  have h3 := List.append_cancel_left h2
  have h4 := List.append_cancel_right h3
  exact String.ext h4

theorem vkey_ne_mkey (folder : List String) (qn t qn' : String) :
    (folder, videoFilename qn t) ≠ ((folder, metadataFilename qn') : FileKey) := by
  intro h
  exact videoFilename_ne_metadataFilename qn t qn' (congrArg Prod.snd h)

theorem lookupFile_upsert_self (k : FileKey) (d : FileData)
    (l : List (FileKey × FileData)) : lookupFile k (upsert k d l) = some d := by
  induction l with
  | nil => simp [upsert, lookupFile]
  | cons e es ih =>
    by_cases h : e.1 = k
    · simp [upsert, lookupFile, h]
    · simp [upsert, lookupFile, h, ih]

theorem lookupFile_upsert_other (k q : FileKey) (d : FileData)
    (l : List (FileKey × FileData)) (h : q ≠ k) :
    lookupFile q (upsert k d l) = lookupFile q l := by
  induction l with
  | nil => simp [upsert, lookupFile, Ne.symm h]
  | cons e es ih =>
    by_cases he : e.1 = k
    · have hq : e.1 ≠ q := by rw [he]; exact Ne.symm h
      simp [upsert, lookupFile, he, hq, Ne.symm h]
    · simp [upsert, lookupFile, he, ih]

theorem keyCount_upsert_other (k q : FileKey) (d : FileData)
    (l : List (FileKey × FileData)) (h : q ≠ k) :
    keyCount q (upsert k d l) = keyCount q l := by
  induction l with
  | nil => simp [upsert, keyCount, Ne.symm h]
  | cons e es ih =>
    by_cases he : e.1 = k
    · have hq : e.1 ≠ q := by rw [he]; exact Ne.symm h
      simp [upsert, keyCount, he, hq, Ne.symm h]
    · simp [upsert, keyCount, he, ih]

theorem keyCount_eq_zero_of_lookup_none (k : FileKey)
    (l : List (FileKey × FileData)) (h : lookupFile k l = none) :
    keyCount k l = 0 := by
  induction l with
  | nil => rfl
  | cons e es ih =>
    by_cases he : e.1 = k
    · simp [lookupFile, he] at h
    · simp only [lookupFile, he, if_false, if_neg he] at h ⊢
      simp [keyCount, he, ih h]

theorem keyCount_upsert_self_of_lookup_none (k : FileKey) (d : FileData)
    (l : List (FileKey × FileData)) (h : lookupFile k l = none) :
    keyCount k (upsert k d l) = 1 := by
  induction l with
  | nil => simp [upsert, keyCount]
  | cons e es ih =>
    by_cases he : e.1 = k
    · simp [lookupFile, he] at h
    · simp only [lookupFile, he, if_neg he] at h
      simp [upsert, keyCount, he, ih h]

theorem keyCount_upsert_self_of_lookup_some (k : FileKey) (d d' : FileData)
    (l : List (FileKey × FileData)) (h : lookupFile k l = some d') :
    keyCount k (upsert k d l) = keyCount k l := by
  induction l with
  | nil => simp [lookupFile] at h
  | cons e es ih =>
    by_cases he : e.1 = k
    · simp [upsert, keyCount, he]
    · simp only [lookupFile, he, if_neg he] at h
      simp [upsert, keyCount, he, ih h]

theorem files_addDir (fs : FS) (d : List String) : (addDir fs d).files = fs.files := by
  unfold addDir
  split <;> rfl

/-- Characterization of a fully successful save_video call. -/
theorem save_video_noErr_eq (fs : FS) (now : DT) (data : Bytes)
    (sid qn qt : String) (n : Int) (h : pyInt qn = some n) :
    save_video noErr fs now data sid qn qt =
      (SaveResult.ok ([now.date, sid], videoFilename qn now.time)
        ⟨sid, n, qt, videoFilename qn now.time, now.iso,
          joinPath [now.date, sid, videoFilename qn now.time], data.length⟩,
       ⟨upsert ([now.date, sid], metadataFilename qn)
          (.meta ⟨sid, n, qt, videoFilename qn now.time, now.iso,
            joinPath [now.date, sid, videoFilename qn now.time], data.length⟩)
          (upsert ([now.date, sid], videoFilename qn now.time) (.video data) fs.files),
        (addDir (addDir fs [now.date]) [now.date, sid]).dirs⟩) := by
  simp [save_video, noErr, create_session_folder, fsWrite, h, files_addDir]

/-- Characterization of save_video when int(question_number) raises: the
video file is already on disk, the metadata write never happens. -/
theorem save_video_noErr_intFail (fs : FS) (now : DT) (data : Bytes)
    (sid qn qt : String) (h : pyInt qn = none) :
    save_video noErr fs now data sid qn qt =
      (SaveResult.err ("invalid literal for int() with base 10: " ++ qn),
       ⟨upsert ([now.date, sid], videoFilename qn now.time) (.video data) fs.files,
        (addDir (addDir fs [now.date]) [now.date, sid]).dirs⟩) := by
  simp [save_video, noErr, create_session_folder, fsWrite, h, files_addDir]

theorem fsRead_mk (files : List (FileKey × FileData)) (dirs : List (List String))
    (k : FileKey) : fsRead ⟨files, dirs⟩ k = lookupFile k files := rfl

theorem fsRead_addDir (fs : FS) (d : List String) (k : FileKey) :
    fsRead (addDir fs d) k = fsRead fs k := by
  unfold fsRead
  rw [files_addDir]

theorem lookupFile_some_mem (k : FileKey) (d : FileData)
    (l : List (FileKey × FileData)) (h : lookupFile k l = some d) : (k, d) ∈ l := by
  induction l with
  | nil => simp [lookupFile] at h
  | cons e es ih =>
    by_cases he : e.1 = k
    · obtain ⟨e1, e2⟩ := e
      simp only at he
      subst he
      simp only [lookupFile, if_pos rfl] at h
      obtain rfl := Option.some.inj h
      exact List.mem_cons_self _ _
    · simp only [lookupFile, he, if_neg he] at h
      exact List.mem_cons_of_mem e (ih h)

/-- State component of a fully successful save_video call. -/
theorem save_video_noErr_snd (fs : FS) (now : DT) (data : Bytes)
    (sid qn qt : String) (n : Int) (h : pyInt qn = some n) :
    (save_video noErr fs now data sid qn qt).2 =
      ⟨upsert ([now.date, sid], metadataFilename qn)
          (.meta ⟨sid, n, qt, videoFilename qn now.time, now.iso,
            joinPath [now.date, sid, videoFilename qn now.time], data.length⟩)
          (upsert ([now.date, sid], videoFilename qn now.time) (.video data) fs.files),
        (addDir (addDir fs [now.date]) [now.date, sid]).dirs⟩ := by
  rw [save_video_noErr_eq fs now data sid qn qt n h]

/-- File table after two back-to-back successful saves for the same
session and question on one day, at times t1 and t2. -/
theorem saveTwice_files (fs : FS) (d t1 iso1 t2 iso2 : String) (b1 b2 : Bytes)
    (sid qn qt1 qt2 : String) (n : Int) (hq : pyInt qn = some n) :
    (saveTwice fs ⟨d, t1, iso1⟩ ⟨d, t2, iso2⟩ b1 b2 sid qn qt1 qt2).files =
      upsert ([d, sid], metadataFilename qn)
        (.meta ⟨sid, n, qt2, videoFilename qn t2, iso2,
          joinPath [d, sid, videoFilename qn t2], b2.length⟩)
        (upsert ([d, sid], videoFilename qn t2) (.video b2)
          (upsert ([d, sid], metadataFilename qn)
            (.meta ⟨sid, n, qt1, videoFilename qn t1, iso1,
              joinPath [d, sid, videoFilename qn t1], b1.length⟩)
            (upsert ([d, sid], videoFilename qn t1) (.video b1) fs.files))) := by
  unfold saveTwice
  rw [save_video_noErr_snd fs ⟨d, t1, iso1⟩ b1 sid qn qt1 n hq]
  rw [save_video_noErr_snd _ ⟨d, t2, iso2⟩ b2 sid qn qt2 n hq]

theorem mem_insertByDateDesc {a x : SessionEntry} {l : List SessionEntry} :
    a ∈ insertByDateDesc x l ↔ a = x ∨ a ∈ l := by
  induction l with
  | nil => simp [insertByDateDesc]
  | cons y ys ih =>
    unfold insertByDateDesc
    split
    · simp [List.mem_cons]
    · simp only [List.mem_cons, ih]
      tauto

theorem pairwise_insertByDateDesc {x : SessionEntry} {l : List SessionEntry}
    (h : l.Pairwise (fun a b => b.date ≤ a.date)) :
    (insertByDateDesc x l).Pairwise (fun a b => b.date ≤ a.date) := by
  induction l with
  | nil => simp [insertByDateDesc]
  | cons y ys ih =>
    rw [List.pairwise_cons] at h
    obtain ⟨hy, hys⟩ := h
    unfold insertByDateDesc
    split
    · rename_i hlt
      rw [List.pairwise_cons]
      refine ⟨?_, List.pairwise_cons.mpr ⟨hy, hys⟩⟩
      intro z hz
      rcases List.mem_cons.mp hz with rfl | hz2
      · exact le_of_lt hlt
      · exact le_trans (hy z hz2) (le_of_lt hlt)
    · rename_i hnlt
      rw [List.pairwise_cons]
      refine ⟨?_, ih hys⟩
      intro z hz
      rcases mem_insertByDateDesc.mp hz with rfl | hz2
      · exact not_lt.mp hnlt
      · exact hy z hz2

theorem pairwise_sortByDateDesc_aux :
    ∀ (l acc : List SessionEntry), acc.Pairwise (fun a b => b.date ≤ a.date) →
      (l.foldl (fun acc x => insertByDateDesc x acc) acc).Pairwise
        (fun a b => b.date ≤ a.date) := by
  intro l
  induction l with
  | nil => intro acc h; exact h
  | cons x xs ih =>
    intro acc h
    exact ih _ (pairwise_insertByDateDesc h)

theorem mem_sortByDateDesc_aux :
    ∀ (l acc : List SessionEntry) (a : SessionEntry),
      a ∈ l.foldl (fun acc x => insertByDateDesc x acc) acc ↔ a ∈ acc ∨ a ∈ l := by
  intro l
  induction l with
  | nil => simp
  | cons x xs ih =>
    intro acc a
    rw [List.foldl_cons, ih, mem_insertByDateDesc]
    simp only [List.mem_cons]
    tauto

theorem saveResult_structured (r : SaveResult) :
    r.success = true ∨ ∃ msg, r = .err msg := by
  cases r with
  | ok p m => exact Or.inl rfl
  | err e => exact Or.inr ⟨e, rfl⟩

theorem infoResult_structured (r : InfoResult) :
    r.success = true ∨ ∃ msg, r = .err msg := by
  cases r with
  | ok a b c d => exact Or.inl rfl
  | err e => exact Or.inr ⟨e, rfl⟩

/-! Claim theorems. -/

/-- C1: whenever save_video reports success, the file at the returned
relative path holds exactly the input bytes, and the metadata record
written for that question records file_size equal to the byte length of
the input; in particular the spec example (two bytes, session sess-A,
question 3, on 2024-06-01 at 14:05:10) produces
2024-06-01/sess-A/question_3_14-05-10.webm holding those two bytes and
question_3_metadata.json recording file_size 2. -/
theorem save_video_roundtrip :
    (∀ env fs now data sid qn qt p m fs₂,
        save_video env fs now data sid qn qt = (SaveResult.ok p m, fs₂) →
        fsRead fs₂ p = some (.video data) ∧
        m.file_size = data.length ∧
        fsRead fs₂ ([now.date, sid], metadataFilename qn) = some (.meta m)) ∧
    ((save_video noErr FS.empty exNow [0, 1] "sess-A" "3" "Tell me about yourself").1 =
        SaveResult.ok (["2024-06-01", "sess-A"], "question_3_14-05-10.webm")
          ⟨"sess-A", 3, "Tell me about yourself", "question_3_14-05-10.webm",
            "2024-06-01T14:05:10", "2024-06-01/sess-A/question_3_14-05-10.webm", 2⟩ ∧
      fsRead (save_video noErr FS.empty exNow [0, 1] "sess-A" "3" "Tell me about yourself").2
        (["2024-06-01", "sess-A"], "question_3_14-05-10.webm") = some (.video [0, 1]) ∧
      fsRead (save_video noErr FS.empty exNow [0, 1] "sess-A" "3" "Tell me about yourself").2
        (["2024-06-01", "sess-A"], "question_3_metadata.json") =
        some (.meta ⟨"sess-A", 3, "Tell me about yourself", "question_3_14-05-10.webm",
          "2024-06-01T14:05:10", "2024-06-01/sess-A/question_3_14-05-10.webm", 2⟩)) := by
  constructor
  · intro env fs now data sid qn qt p m fs₂ h
    obtain ⟨me, wv, wm⟩ := env
    cases me with
    | some e => simp [save_video] at h
    | none =>
      cases wv with
      | some e => simp [save_video] at h
      | none =>
        cases hq : pyInt qn with
        | none => simp [save_video, hq] at h
        | some n =>
          cases wm with
          | some e => simp [save_video, hq] at h
          | none =>
            have h2 := (save_video_noErr_eq fs now data sid qn qt n hq).symm.trans h
            injection h2 with h3 h4
            injection h3 with hp hm
            subst hp
            subst hm
            subst h4
            refine ⟨?_, rfl, ?_⟩
            · rw [fsRead_mk,
                lookupFile_upsert_other _ _ _ _ (vkey_ne_mkey [now.date, sid] qn now.time qn),
                lookupFile_upsert_self]
            · rw [fsRead_mk, lookupFile_upsert_self]
  · exact ⟨by decide, by decide, by decide⟩

/-- Witness for C1 at the spec example input. -/
theorem save_video_roundtrip_witness :
    fsRead (save_video noErr FS.empty exNow [0, 1] "sess-A" "3" "Tell me about yourself").2
        (["2024-06-01", "sess-A"], videoFilename "3" "14-05-10") = some (.video [0, 1]) ∧
      (⟨"sess-A", 3, "Tell me about yourself", videoFilename "3" "14-05-10",
        "2024-06-01T14:05:10", joinPath ["2024-06-01", "sess-A", videoFilename "3" "14-05-10"],
        2⟩ : Metadata).file_size = ([0, 1] : Bytes).length ∧
      fsRead (save_video noErr FS.empty exNow [0, 1] "sess-A" "3" "Tell me about yourself").2
        (["2024-06-01", "sess-A"], metadataFilename "3") =
        some (.meta ⟨"sess-A", 3, "Tell me about yourself", videoFilename "3" "14-05-10",
          "2024-06-01T14:05:10", joinPath ["2024-06-01", "sess-A", videoFilename "3" "14-05-10"],
          2⟩) :=
  save_video_roundtrip.1 noErr FS.empty exNow [0, 1] "sess-A" "3" "Tell me about yourself"
    (["2024-06-01", "sess-A"], videoFilename "3" "14-05-10")
    ⟨"sess-A", 3, "Tell me about yourself", videoFilename "3" "14-05-10",
      "2024-06-01T14:05:10", joinPath ["2024-06-01", "sess-A", videoFilename "3" "14-05-10"], 2⟩
    (save_video noErr FS.empty exNow [0, 1] "sess-A" "3" "Tell me about yourself").2 rfl

/-- C3: save_video and get_session_info never propagate an exception: for
every injected internal failure the result is a structured value, and on
each failure path it is success=false with the textual error description;
an injected mkdir failure, an injected video-write failure, and an
injected exception inside get_session_info each surface as that error. -/
theorem storage_results_structured :
    ∀ env fs now data sid qn qt ienv sid2 (e : String),
      ((save_video env fs now data sid qn qt).1.success = true ∨
        ∃ msg, (save_video env fs now data sid qn qt).1 = .err msg) ∧
      ((get_session_info ienv fs now sid2).success = true ∨
        ∃ msg, get_session_info ienv fs now sid2 = .err msg) ∧
      (save_video ⟨some e, env.writeVideoErr, env.writeMetaErr⟩ fs now data sid qn qt).1 =
        .err e ∧
      (save_video ⟨none, some e, env.writeMetaErr⟩ fs now data sid qn qt).1 = .err e ∧
      get_session_info (some e) fs now sid2 = .err e := by
  intro env fs now data sid qn qt ienv sid2 e
  exact ⟨saveResult_structured _, infoResult_structured _, rfl, rfl, rfl⟩

/-- C4: get_session_info looks only under today's date folder: when
base/today/session_id does not exist it returns the session-not-found
failure, regardless of what exists under other dates. -/
theorem get_session_info_today_only :
    ∀ fs now sid,
      pathExists fs [now.date, sid] = false →
      get_session_info none fs now sid = .err "Сессия не найдена" := by
  intro fs now sid h
  simp [get_session_info, h]

/-- Witness for C4: the session folder exists under a prior date
(2024-05-31) but not under today (2024-06-01), and the lookup fails. -/
theorem get_session_info_today_only_witness :
    pathExists fsPrior ["2024-06-01", "sess-A"] = false ∧
    get_session_info none fsPrior exNow "sess-A" = .err "Сессия не найдена" :=
  ⟨by decide, get_session_info_today_only fsPrior exNow "sess-A" (by decide)⟩

/-- C9: when question_number is not integer-convertible, save_video
reports failure, but not atomically: the video file, named with the raw
question_number string, is already on disk with the full payload. -/
theorem save_video_nonint_question_nonatomic :
    ∀ fs now data sid qn qt,
      pyInt qn = none →
      (save_video noErr fs now data sid qn qt).1.success = false ∧
      fsRead (save_video noErr fs now data sid qn qt).2
        ([now.date, sid], videoFilename qn now.time) = some (.video data) := by
  intro fs now data sid qn qt h
  rw [save_video_noErr_intFail fs now data sid qn qt h]
  exact ⟨rfl, lookupFile_upsert_self _ _ _⟩

/-- Witness for C9 at question_number abc. -/
theorem save_video_nonint_question_nonatomic_witness :
    (save_video noErr FS.empty exNow [7] "sess-A" "abc" "Q").1.success = false ∧
    fsRead (save_video noErr FS.empty exNow [7] "sess-A" "abc" "Q").2
      ([exNow.date, "sess-A"], videoFilename "abc" exNow.time) = some (.video [7]) :=
  save_video_nonint_question_nonatomic FS.empty exNow [7] "sess-A" "abc" "Q" (by decide)

/-- C2 counterexample: two saves for the same (session_id,
question_number) on the same calendar day, falling in the same wall-clock
second, do not produce two distinct video files: the second save reuses
the same filename, leaving exactly one video file, which holds the second
payload. -/
theorem save_video_same_second_collision :
    (webmFilesIn (saveTwice FS.empty exNow exNow [0] [1] "s" "1" "a" "b")
      ["2024-06-01", "s"]).length = 1 ∧
    fsRead (saveTwice FS.empty exNow exNow [0] [1] "s" "1" "a" "b")
      (["2024-06-01", "s"], videoFilename "1" "14-05-10") = some (.video [1]) := by
  decide

/-- C2 amended: calling save_video twice with the same (session_id,
question_number) on the same calendar day, at distinct second-resolution
times, produces two distinct video files (their names carry the two
different timestamps and each holds its own payload) but exactly one
metadata file for that question, whose contents reflect the values of the
second save. -/
theorem save_video_twice_distinct_seconds :
    ∀ fs d t1 iso1 t2 iso2 (b1 b2 : Bytes) sid qn qt1 qt2 (n : Int),
      t1 ≠ t2 → pyInt qn = some n →
      fsRead fs ([d, sid], metadataFilename qn) = none →
      videoFilename qn t1 ≠ videoFilename qn t2 ∧
      fsRead (saveTwice fs ⟨d, t1, iso1⟩ ⟨d, t2, iso2⟩ b1 b2 sid qn qt1 qt2)
        ([d, sid], videoFilename qn t1) = some (.video b1) ∧
      fsRead (saveTwice fs ⟨d, t1, iso1⟩ ⟨d, t2, iso2⟩ b1 b2 sid qn qt1 qt2)
        ([d, sid], videoFilename qn t2) = some (.video b2) ∧
      keyCount ([d, sid], metadataFilename qn)
        (saveTwice fs ⟨d, t1, iso1⟩ ⟨d, t2, iso2⟩ b1 b2 sid qn qt1 qt2).files = 1 ∧
      fsRead (saveTwice fs ⟨d, t1, iso1⟩ ⟨d, t2, iso2⟩ b1 b2 sid qn qt1 qt2)
        ([d, sid], metadataFilename qn) =
        some (.meta ⟨sid, n, qt2, videoFilename qn t2, iso2,
          joinPath [d, sid, videoFilename qn t2], b2.length⟩) := by
  intro fs d t1 iso1 t2 iso2 b1 b2 sid qn qt1 qt2 n ht hq hm
  have hvne : videoFilename qn t1 ≠ videoFilename qn t2 :=
    fun hc => ht (videoFilename_inj_time qn t1 t2 hc)
  have hk12 : (([d, sid], videoFilename qn t1) : FileKey) ≠ ([d, sid], videoFilename qn t2) :=
    fun hc => hvne (congrArg Prod.snd hc)
  have hfiles := saveTwice_files fs d t1 iso1 t2 iso2 b1 b2 sid qn qt1 qt2 n hq
  have hmfs : lookupFile ([d, sid], metadataFilename qn) fs.files = none := hm
  refine ⟨hvne, ?_, ?_, ?_, ?_⟩
  · show lookupFile _ (saveTwice fs ⟨d, t1, iso1⟩ ⟨d, t2, iso2⟩ b1 b2 sid qn qt1 qt2).files = _
    rw [hfiles,
      lookupFile_upsert_other _ _ _ _ (vkey_ne_mkey [d, sid] qn t1 qn),
      lookupFile_upsert_other _ _ _ _ hk12,
      lookupFile_upsert_other _ _ _ _ (vkey_ne_mkey [d, sid] qn t1 qn),
      lookupFile_upsert_self]
  · show lookupFile _ (saveTwice fs ⟨d, t1, iso1⟩ ⟨d, t2, iso2⟩ b1 b2 sid qn qt1 qt2).files = _
    rw [hfiles,
      lookupFile_upsert_other _ _ _ _ (vkey_ne_mkey [d, sid] qn t2 qn),
      lookupFile_upsert_self]
  · have l1 : lookupFile ([d, sid], metadataFilename qn)
        (upsert ([d, sid], videoFilename qn t1) (.video b1) fs.files) = none := by
      rw [lookupFile_upsert_other _ _ _ _ (Ne.symm (vkey_ne_mkey [d, sid] qn t1 qn))]
      exact hmfs
    have l2 : lookupFile ([d, sid], metadataFilename qn)
        (upsert ([d, sid], videoFilename qn t2) (.video b2)
          (upsert ([d, sid], metadataFilename qn)
            (.meta ⟨sid, n, qt1, videoFilename qn t1, iso1,
              joinPath [d, sid, videoFilename qn t1], b1.length⟩)
            (upsert ([d, sid], videoFilename qn t1) (.video b1) fs.files))) =
        some (.meta ⟨sid, n, qt1, videoFilename qn t1, iso1,
          joinPath [d, sid, videoFilename qn t1], b1.length⟩) := by
      rw [lookupFile_upsert_other _ _ _ _ (Ne.symm (vkey_ne_mkey [d, sid] qn t2 qn)),
        lookupFile_upsert_self]
    rw [hfiles]
    rw [keyCount_upsert_self_of_lookup_some _ _ _ _ l2]
    rw [keyCount_upsert_other _ _ _ _ (Ne.symm (vkey_ne_mkey [d, sid] qn t2 qn))]
    rw [keyCount_upsert_self_of_lookup_none _ _ _ l1]
  · show lookupFile _ (saveTwice fs ⟨d, t1, iso1⟩ ⟨d, t2, iso2⟩ b1 b2 sid qn qt1 qt2).files = _
    rw [hfiles, lookupFile_upsert_self]

/-- Witness for the amended C2 at two saves one second apart. -/
theorem save_video_twice_distinct_seconds_witness :
    videoFilename "3" "14-05-10" ≠ videoFilename "3" "14-05-11" ∧
    fsRead (saveTwice FS.empty ⟨"2024-06-01", "14-05-10", "2024-06-01T14:05:10"⟩
        ⟨"2024-06-01", "14-05-11", "2024-06-01T14:05:11"⟩ [0] [0, 1] "s" "3" "a" "b")
      (["2024-06-01", "s"], videoFilename "3" "14-05-10") = some (.video [0]) ∧
    fsRead (saveTwice FS.empty ⟨"2024-06-01", "14-05-10", "2024-06-01T14:05:10"⟩
        ⟨"2024-06-01", "14-05-11", "2024-06-01T14:05:11"⟩ [0] [0, 1] "s" "3" "a" "b")
      (["2024-06-01", "s"], videoFilename "3" "14-05-11") = some (.video [0, 1]) ∧
    keyCount (["2024-06-01", "s"], metadataFilename "3")
      (saveTwice FS.empty ⟨"2024-06-01", "14-05-10", "2024-06-01T14:05:10"⟩
        ⟨"2024-06-01", "14-05-11", "2024-06-01T14:05:11"⟩ [0] [0, 1] "s" "3" "a" "b").files = 1 ∧
    fsRead (saveTwice FS.empty ⟨"2024-06-01", "14-05-10", "2024-06-01T14:05:10"⟩
        ⟨"2024-06-01", "14-05-11", "2024-06-01T14:05:11"⟩ [0] [0, 1] "s" "3" "a" "b")
      (["2024-06-01", "s"], metadataFilename "3") =
      some (.meta ⟨"s", 3, "b", videoFilename "3" "14-05-11", "2024-06-01T14:05:11",
        joinPath ["2024-06-01", "s", videoFilename "3" "14-05-11"], ([0, 1] : Bytes).length⟩) :=
  save_video_twice_distinct_seconds FS.empty "2024-06-01" "14-05-10" "2024-06-01T14:05:10"
    "14-05-11" "2024-06-01T14:05:11" [0] [0, 1] "s" "3" "a" "b" 3 (by decide) (by decide) rfl

/-- C5 counterexample: a save_video call can mutate a previously written
video file: a second save for the same question within the same wall-clock
second overwrites the first video file with the new payload. -/
theorem save_video_same_second_mutates_video :
    fsRead (save_video noErr FS.empty exNow [0] "s" "1" "a").2
      (["2024-06-01", "s"], videoFilename "1" "14-05-10") = some (.video [0]) ∧
    fsRead (saveTwice FS.empty exNow exNow [0] [1] "s" "1" "a" "b")
      (["2024-06-01", "s"], videoFilename "1" "14-05-10") ≠ some (.video [0]) := by
  decide

/-- C5 amended: provided the computed video filename does not collide with
an existing file (no same-second save for the same question), one
save_video call touches at most the new video file and the per-question
metadata file: every other path is unchanged, previously written video
files keep their bytes, no file is deleted, and any file present
afterwards was present before or is one of those two paths. -/
theorem save_video_frame_condition :
    ∀ env fs now data sid qn qt,
      fsRead fs ([now.date, sid], videoFilename qn now.time) = none →
      videosWellNamed fs →
      (∀ k, k ≠ (([now.date, sid], videoFilename qn now.time) : FileKey) →
        k ≠ (([now.date, sid], metadataFilename qn) : FileKey) →
        fsRead (save_video env fs now data sid qn qt).2 k = fsRead fs k) ∧
      (∀ k (b : Bytes), fsRead fs k = some (.video b) →
        fsRead (save_video env fs now data sid qn qt).2 k = some (.video b)) ∧
      (∀ k, fsRead fs k ≠ none → fsRead (save_video env fs now data sid qn qt).2 k ≠ none) ∧
      (∀ k, fsRead (save_video env fs now data sid qn qt).2 k ≠ none →
        fsRead fs k ≠ none ∨
          k = (([now.date, sid], videoFilename qn now.time) : FileKey) ∨
          k = (([now.date, sid], metadataFilename qn) : FileKey)) := by
  intro env fs now data sid qn qt hv hw
  have hkm : ∀ k (b : Bytes), fsRead fs k = some (.video b) →
      k ≠ (([now.date, sid], metadataFilename qn) : FileKey) := by
    intro k b hk hc
    have hmem := lookupFile_some_mem k (.video b) fs.files hk
    have hlast := hw (k, .video b) hmem b rfl
    rw [hc] at hlast
    rw [strLast_metadataFilename qn] at hlast
    exact absurd (Option.some.inj hlast) (by decide)
  have hkv : ∀ k (d : FileData), fsRead fs k = some d →
      k ≠ (([now.date, sid], videoFilename qn now.time) : FileKey) := by
    intro k d hk hc
    rw [hc, hv] at hk
    exact Option.noConfusion hk
  obtain ⟨me, wv, wm⟩ := env
  cases me with
  | some e =>
    refine ⟨fun k h1 h2 => rfl, fun k b hk => hk, fun k hk => hk, fun k hk => Or.inl hk⟩
  | none =>
    cases wv with
    | some e =>
      refine ⟨fun k h1 h2 => ?_, fun k b hk => ?_, fun k hk => ?_, fun k hk => ?_⟩
      · show fsRead (addDir (addDir fs [now.date]) [now.date, sid]) k = fsRead fs k
        rw [fsRead_addDir, fsRead_addDir]
      · show fsRead (addDir (addDir fs [now.date]) [now.date, sid]) k = some (.video b)
        rw [fsRead_addDir, fsRead_addDir]
        exact hk
      · show fsRead (addDir (addDir fs [now.date]) [now.date, sid]) k ≠ none
        rw [fsRead_addDir, fsRead_addDir]
        exact hk
      · rw [show fsRead (save_video ⟨none, some e, wm⟩ fs now data sid qn qt).2 k =
            fsRead fs k from by
          show fsRead (addDir (addDir fs [now.date]) [now.date, sid]) k = fsRead fs k
          rw [fsRead_addDir, fsRead_addDir]] at hk
        exact Or.inl hk
    | none =>
      cases hq : pyInt qn with
      | none =>
        have hfe : (save_video ⟨none, none, wm⟩ fs now data sid qn qt).2.files =
            upsert ([now.date, sid], videoFilename qn now.time) (.video data) fs.files := by
          simp [save_video, create_session_folder, fsWrite, hq, files_addDir]
        refine ⟨fun k h1 h2 => ?_, fun k b hk => ?_, fun k hk => ?_, fun k hk => ?_⟩
        · show lookupFile k _ = fsRead fs k
          rw [hfe, lookupFile_upsert_other _ _ _ _ h1]
          rfl
        · show lookupFile k _ = some (.video b)
          rw [hfe, lookupFile_upsert_other _ _ _ _ (hkv k _ hk)]
          exact hk
        · show lookupFile k _ ≠ none
          rw [hfe]
          by_cases hc : k = (([now.date, sid], videoFilename qn now.time) : FileKey)
          · subst hc
            rw [lookupFile_upsert_self]
            exact Option.noConfusion
          · rw [lookupFile_upsert_other _ _ _ _ hc]
            exact hk
        · by_cases hc : k = (([now.date, sid], videoFilename qn now.time) : FileKey)
          · exact Or.inr (Or.inl hc)
          · left
            have : lookupFile k (save_video ⟨none, none, wm⟩ fs now data sid qn qt).2.files ≠
                none := hk
            rw [hfe, lookupFile_upsert_other _ _ _ _ hc] at this
            exact this
      | some n =>
        cases wm with
        | some e =>
          have hfe : (save_video ⟨none, none, some e⟩ fs now data sid qn qt).2.files =
              upsert ([now.date, sid], videoFilename qn now.time) (.video data) fs.files := by
            simp [save_video, create_session_folder, fsWrite, hq, files_addDir]
          refine ⟨fun k h1 h2 => ?_, fun k b hk => ?_, fun k hk => ?_, fun k hk => ?_⟩
          · show lookupFile k _ = fsRead fs k
            rw [hfe, lookupFile_upsert_other _ _ _ _ h1]
            rfl
          · show lookupFile k _ = some (.video b)
            rw [hfe, lookupFile_upsert_other _ _ _ _ (hkv k _ hk)]
            exact hk
          · show lookupFile k _ ≠ none
            rw [hfe]
            by_cases hc : k = (([now.date, sid], videoFilename qn now.time) : FileKey)
            · subst hc
              rw [lookupFile_upsert_self]
              exact Option.noConfusion
            · rw [lookupFile_upsert_other _ _ _ _ hc]
              exact hk
          · by_cases hc : k = (([now.date, sid], videoFilename qn now.time) : FileKey)
            · exact Or.inr (Or.inl hc)
            · left
              have : lookupFile k
                  (save_video ⟨none, none, some e⟩ fs now data sid qn qt).2.files ≠ none := hk
              rw [hfe, lookupFile_upsert_other _ _ _ _ hc] at this
              exact this
        | none =>
          have hfe : (save_video ⟨none, none, none⟩ fs now data sid qn qt).2.files =
              upsert ([now.date, sid], metadataFilename qn)
                (.meta ⟨sid, n, qt, videoFilename qn now.time, now.iso,
                  joinPath [now.date, sid, videoFilename qn now.time], data.length⟩)
                (upsert ([now.date, sid], videoFilename qn now.time)
                  (.video data) fs.files) := by
            have := save_video_noErr_snd fs now data sid qn qt n hq
            rw [show (⟨none, none, none⟩ : Err) = noErr from rfl, this]
          refine ⟨fun k h1 h2 => ?_, fun k b hk => ?_, fun k hk => ?_, fun k hk => ?_⟩
          · show lookupFile k _ = fsRead fs k
            rw [hfe, lookupFile_upsert_other _ _ _ _ h2, lookupFile_upsert_other _ _ _ _ h1]
            rfl
          · show lookupFile k _ = some (.video b)
            rw [hfe, lookupFile_upsert_other _ _ _ _ (hkm k b hk),
              lookupFile_upsert_other _ _ _ _ (hkv k _ hk)]
            exact hk
          · show lookupFile k _ ≠ none
            rw [hfe]
            by_cases hc2 : k = (([now.date, sid], metadataFilename qn) : FileKey)
            · subst hc2
              rw [lookupFile_upsert_self]
              exact Option.noConfusion
            · rw [lookupFile_upsert_other _ _ _ _ hc2]
              by_cases hc : k = (([now.date, sid], videoFilename qn now.time) : FileKey)
              · subst hc
                rw [lookupFile_upsert_self]
                exact Option.noConfusion
              · rw [lookupFile_upsert_other _ _ _ _ hc]
                exact hk
          · by_cases hc2 : k = (([now.date, sid], metadataFilename qn) : FileKey)
            · exact Or.inr (Or.inr hc2)
            · by_cases hc : k = (([now.date, sid], videoFilename qn now.time) : FileKey)
              · exact Or.inr (Or.inl hc)
              · left
                have : lookupFile k
                    (save_video ⟨none, none, none⟩ fs now data sid qn qt).2.files ≠
                      none := hk
                rw [hfe, lookupFile_upsert_other _ _ _ _ hc2,
                  lookupFile_upsert_other _ _ _ _ hc] at this
                exact this

/-- Witness for the amended C5: saving into an empty store leaves an
unrelated path unchanged. -/
theorem save_video_frame_condition_witness :
    fsRead (save_video noErr FS.empty exNow [0] "s" "1" "a").2 (["other"], "x.webm") =
      fsRead FS.empty (["other"], "x.webm") :=
  (save_video_frame_condition noErr FS.empty exNow [0] "s" "1" "a" rfl
      (fun e he => absurd he (List.not_mem_nil e))).1
    (["other"], "x.webm") (by decide) (by decide)

/-- C6: for an existing session folder, total_questions equals the number
of glob *.webm files in the folder (with the per-file summary built from
them); on the duplicate-question fixture this count is 2 while only 1
metadata file exists, so it can exceed the number of metadata records. -/
theorem get_session_info_total_questions :
    (∀ fs now sid, pathExists fs [now.date, sid] = true →
        get_session_info none fs now sid =
          .ok sid (webmFilesIn fs [now.date, sid]).length [now.date, sid]
            ((webmFilesIn fs [now.date, sid]).map (fun e => ⟨e.1, fileSize e.2⟩))) ∧
    (get_session_info none fsDup exNow "s").total_questions? = some 2 ∧
    (metaJsonFilesIn fsDup ["2024-06-01", "s"]).length = 1 := by
  refine ⟨?_, by decide, by decide⟩
  intro fs now sid h
  simp [get_session_info, h]

/-- Witness for C6 on the duplicate-question fixture. -/
theorem get_session_info_total_questions_witness :
    pathExists fsDup ["2024-06-01", "s"] = true ∧
    get_session_info none fsDup exNow "s" =
      .ok "s" (webmFilesIn fsDup [exNow.date, "s"]).length [exNow.date, "s"]
        ((webmFilesIn fsDup [exNow.date, "s"]).map (fun e => ⟨e.1, fileSize e.2⟩)) :=
  ⟨by decide, get_session_info_total_questions.1 fsDup exNow "s" (by decide)⟩

/-- C7: list_sessions is sorted by date in descending order (every later
entry has a date no larger than any earlier one), and each entry reports
as video_count the number of glob *.webm files in its session folder. -/
theorem list_sessions_sorted_and_counts :
    ∀ fs,
      (list_sessions fs).Pairwise (fun a b => b.date ≤ a.date) ∧
      (∀ e, e ∈ list_sessions fs →
        e.video_count = (webmFilesIn fs [e.date, e.session_id]).length ∧
        e.path = joinPath [e.date, e.session_id]) := by
  intro fs
  constructor
  · exact pairwise_sortByDateDesc_aux _ [] List.Pairwise.nil
  · intro e he
    have h1 : e ∈ sortByDateDesc ((dateFolders fs).flatMap (fun date =>
        (sessionFoldersIn fs date).map (fun sid =>
          ⟨sid, date, (webmFilesIn fs [date, sid]).length, joinPath [date, sid]⟩))) := he
    have h2 := (mem_sortByDateDesc_aux _ [] e).mp h1
    simp only [List.not_mem_nil, false_or] at h2
    simp only [List.mem_flatMap, List.mem_map] at h2
    obtain ⟨date, hd, sid, hs, rfl⟩ := h2
    exact ⟨rfl, rfl⟩

/-- Witness for C7 on the duplicate-question fixture. -/
theorem list_sessions_sorted_and_counts_witness :
    (list_sessions fsDup).Pairwise (fun a b => b.date ≤ a.date) ∧
    ((⟨"s", "2024-06-01", 2, "2024-06-01/s"⟩ : SessionEntry).video_count =
      (webmFilesIn fsDup
        [(⟨"s", "2024-06-01", 2, "2024-06-01/s"⟩ : SessionEntry).date,
          (⟨"s", "2024-06-01", 2, "2024-06-01/s"⟩ : SessionEntry).session_id]).length ∧
      (⟨"s", "2024-06-01", 2, "2024-06-01/s"⟩ : SessionEntry).path =
        joinPath [(⟨"s", "2024-06-01", 2, "2024-06-01/s"⟩ : SessionEntry).date,
          (⟨"s", "2024-06-01", 2, "2024-06-01/s"⟩ : SessionEntry).session_id]) :=
  ⟨(list_sessions_sorted_and_counts fsDup).1,
    (list_sessions_sorted_and_counts fsDup).2 ⟨"s", "2024-06-01", 2, "2024-06-01/s"⟩
      (by decide)⟩

/-- C8: an upload whose video payload is empty is rejected with a client
error (400) before any storage call, leaving the disk untouched. -/
theorem upload_video_rejects_empty_payload :
    ∀ env req fs now fname,
      req.video = some (fname, ([] : Bytes)) →
      (upload_video env req fs now).1.isClientErr = true ∧
      (upload_video env req fs now).2 = fs := by
  intro env req fs now fname h
  obtain ⟨v, s, q, t⟩ := req
  simp only at h
  subst h
  by_cases hf : fname = ""
  · simp [upload_video, hf, HttpResp.isClientErr]
  · simp [upload_video, hf, HttpResp.isClientErr]

/-- Witness for C8 at a request holding an empty payload. -/
theorem upload_video_rejects_empty_payload_witness :
    (upload_video noErr ⟨some ("a.webm", []), none, none, none⟩ FS.empty exNow).1.isClientErr =
        true ∧
    (upload_video noErr ⟨some ("a.webm", []), none, none, none⟩ FS.empty exNow).2 = FS.empty :=
  upload_video_rejects_empty_payload noErr ⟨some ("a.webm", []), none, none, none⟩ FS.empty
    exNow "a.webm" rfl

/-- C10: absent form fields are silently defaulted, not rejected: with no
session_id, question_number or question_text fields, a nonempty upload
proceeds exactly as a save_video call with unknown, 1 and the empty
string. -/
theorem upload_video_defaults_missing_fields :
    ∀ env fs now fname (data : Bytes),
      fname ≠ "" → data ≠ [] →
      upload_video env ⟨some (fname, data), none, none, none⟩ fs now =
        saveRespOf (save_video env fs now data "unknown" "1" "") := by
  intro env fs now fname data hf hd
  have hl : data.length ≠ 0 := by
    intro hc
    exact hd (List.length_eq_zero.mp hc)
  simp [upload_video, hf, hl]

/-- Witness for C10 at a one-byte upload with no form fields. -/
theorem upload_video_defaults_missing_fields_witness :
    upload_video noErr ⟨some ("a.webm", [5]), none, none, none⟩ FS.empty exNow =
      saveRespOf (save_video noErr FS.empty exNow [5] "unknown" "1" "") :=
  upload_video_defaults_missing_fields noErr FS.empty exNow "a.webm" [5] (by decide) (by decide)

end VideoRecord
